import Mathlib

/-!
# Verification of `config.py` (LOFMonitor) — `ConfigManager`

A shallow embedding of the configuration / daily-alert-deduplication manager
in `src/config.py`.  JSON-style configuration values become the inductive
`Value`; the Python `dict` holding the configuration becomes an association
list `CMap` with dict-style update semantics; the process environment and the
on-disk configuration file become explicit inputs (`Env`, `World`); each
method of `ConfigManager` becomes a pure function returning the new manager
state, the new world, the list of file contents written, and the log lines
printed.  `datetime.now().strftime` becomes an explicit `today : String`
argument.
-/

namespace LOFMonitor

/-- A JSON-style configuration value as `config.py` uses them: numbers
(thresholds), strings (dates, mode), and lists of strings (alerted fund
codes).  Python floats are modelled as rationals. -/
inductive Value where
  | num (q : ℚ)
  | str (s : String)
  | list (l : List String)
deriving DecidableEq, Repr

/-- The configuration mapping: a Python `dict` with string keys, modelled as
an association list with unique keys maintained by `CMap.set`. -/
abbrev CMap := List (String × Value)

namespace CMap

/-- `d.get(k)` / `d[k]` lookup: the value stored at `k`, if any. -/
def get? : CMap → String → Option Value
  | [], _ => none
  | p :: rest, k => if p.1 = k then some p.2 else get? rest k

/-- `d[k] = v`: replace the value at `k` if present, else append the entry
(dict insertion keeps the original position of an existing key). -/
def set : CMap → String → Value → CMap
  | [], k, v => [(k, v)]
  | p :: rest, k, v => if p.1 = k then (k, v) :: rest else p :: set rest k v

/-- `del d[k]` guarded by `if k in d`: remove the entry with key `k`. -/
def erase : CMap → String → CMap
  | [], _ => []
  | p :: rest, k => if p.1 = k then erase rest k else p :: erase rest k

/-- `base.update(overlay)`: overlay entries win per key (Python
`dict.update`, applied left to right in insertion order). -/
def update (base : CMap) : CMap → CMap
  | [] => base
  | (k, v) :: rest => update (base.set k v) rest

/-- The keys of the mapping, in order. -/
def keys (m : CMap) : List String :=
  m.map Prod.fst

end CMap

/-- Lines 53–55 and 88–92 of `config.py`: drop the two credential keys
`dingtalk_webhook` and `dingtalk_secret` from a mapping. -/
def strip (m : CMap) : CMap :=
  (m.erase "dingtalk_webhook").erase "dingtalk_secret"

/-- The parsed content of `config.json`: either a mapping, or text that
`json.load` rejects. -/
inductive DiskFile where
  | parsed (m : CMap)
  | malformed
deriving DecidableEq, Repr

/-- The parts of the outside world `ConfigManager` touches: the configuration
file (`none` when `os.path.exists` is false) and whether writes to it
succeed (`open(..., 'w')`/`json.dump` raising is `writable = false`). -/
structure World where
  file : Option DiskFile
  writable : Bool
deriving DecidableEq, Repr

/-- The process environment variables read by `load_config`. -/
structure Env where
  premiumThreshold : Option String
  discountThreshold : Option String
  dingtalkWebhook : Option String
  dingtalkSecret : Option String
deriving DecidableEq, Repr

/-- The in-memory state of a `ConfigManager` instance: the `config` dict and
the two credential fields held outside it. -/
structure ConfigManager where
  config : CMap
  dingtalk_webhook : Value
  dingtalk_secret : Value
deriving DecidableEq, Repr

/-- The outcome of one `ConfigManager` method call: the new in-memory state,
the new world, each mapping written to `config.json` (in order), and the log
lines printed. -/
structure OpResult where
  cm : ConfigManager
  world : World
  writes : List CMap
  logs : List String
deriving DecidableEq, Repr

/-- Lines 39–45: `self.default_config`. -/
def default_config : CMap :=
  [("premium_threshold", .num 30),
   ("discount_threshold", .num 40),
   ("last_alert_date", .str ""),
   ("alerted_funds", .list []),
   ("mode", .str "ui")]

/-- Decimal digits to a natural number, failing on a non-digit. -/
def digitsToNat : ℕ → List Char → Option ℕ
  | acc, [] => some acc
  | acc, c :: cs =>
    if c.isDigit then digitsToNat (acc * 10 + (c.toNat - 48)) cs else none

/-- Model of the Python built-in `float(s)` used at line 76 of `config.py`,
restricted to plain decimal literals: optional sign, digits, optional dot and
fractional digits, at least one digit in all.  `none` is Python raising
`ValueError`. -/
def pyFloat (s : String) : Option ℚ :=
  let (sgn, rest) : ℚ × List Char :=
    match s.data with
    | '-' :: r => (-1, r)
    | '+' :: r => (1, r)
    | r => (1, r)
  let ip := rest.takeWhile (fun c => c ≠ '.')
  match rest.drop ip.length with
  | [] =>
    if ip.isEmpty then none
    else (digitsToNat 0 ip).map (fun n => sgn * n)
  | _ :: fp =>
    if ip.isEmpty && fp.isEmpty then none
    else
      match digitsToNat 0 ip, digitsToNat 0 fp with
      | some ni, some nf => some (sgn * ((ni : ℚ) + (nf : ℚ) / 10 ^ fp.length))
      | _, _ => none

/-- `if env_val:` — an environment value is truthy when set and non-empty. -/
def envTruthy : Option String → Bool
  | none => false
  | some s => !s.isEmpty

/-- Lines 72–78 of `config.py` for one entry of `env_mapping`: if the
environment value is truthy, overwrite `config[key]` with its float parse;
on `ValueError` print a format-error line and leave the mapping unchanged. -/
def applyEnvOverride (cfg : CMap) (envVal : Option String) (key : String) :
    CMap × List String :=
  match envVal with
  | none => (cfg, [])
  | some s =>
    if s.isEmpty then (cfg, [])
    else
      match pyFloat s with
      | some q => (cfg.set key (.num q), [])
      | none => (cfg, ["环境变量格式错误: " ++ key ++ "=" ++ s])

/-- Lines 68–78: both entries of `env_mapping`, in iteration order
(`PREMIUM_THRESHOLD` then `DISCOUNT_THRESHOLD`). -/
def applyEnvOverrides (cfg : CMap) (env : Env) : CMap × List String :=
  let r1 := applyEnvOverride cfg env.premiumThreshold "premium_threshold"
  let r2 := applyEnvOverride r1.1 env.discountThreshold "discount_threshold"
  (r2.1, r1.2 ++ r2.2)

/-- An environment value actually overrides its key: it is set, non-empty and
parses as a float. -/
def overrideApplies : Option String → Bool
  | none => false
  | some s => !s.isEmpty && (pyFloat s).isSome

/-- The environment layer defines the key `k`: `k` is one of the two
threshold keys and its override applies. -/
def envDefines (env : Env) (k : String) : Bool :=
  (decide (k = "premium_threshold") && overrideApplies env.premiumThreshold)
    || (decide (k = "discount_threshold")
          && overrideApplies env.discountThreshold)

/-- Lines 84–97: `save_config`.  Strip the credential keys from a copy of the
mapping and write it to `config.json`; a failed write is logged and leaves
the file as it was.  The in-memory state is untouched. -/
def save_config (cm : ConfigManager) (w : World) : OpResult :=
  let toSave := strip cm.config
  if w.writable then
    { cm := cm, world := { w with file := some (.parsed toSave) },
      writes := [toSave], logs := [] }
  else
    { cm := cm, world := w, writes := [], logs := ["保存配置文件失败"] }

/-- Lines 47–65 of `load_config`: the merge of defaults with the on-disk
state (before environment overrides are applied). -/
def mergedConfig (w : World) : CMap :=
  match w.file with
  | some (.parsed saved) => default_config.update (strip saved)
  | some .malformed => default_config
  | none => default_config

/-- Lines 37–82: `load_config`.  Build defaults; merge a parsed file with the
credential keys removed (a malformed file is logged and defaults used; a
missing file makes `load_config` save the defaults at once); overlay the two
threshold environment overrides; load the credential pair straight from the
environment into the dedicated fields. -/
def load_config (env : Env) (w : World) : OpResult :=
  let disk : World × List CMap × List String :=
    match w.file with
    | some (.parsed _) => (w, [], [])
    | some .malformed => (w, [], ["读取配置文件失败，使用默认配置"])
    | none =>
      let r := save_config ⟨default_config, .str "", .str ""⟩ w
      (r.world, r.writes, r.logs)
  let env2 := applyEnvOverrides (mergedConfig w) env
  { cm :=
      { config := env2.1,
        dingtalk_webhook := .str ((env.dingtalkWebhook).getD ""),
        dingtalk_secret := .str ((env.dingtalkSecret).getD "") },
    world := disk.1, writes := disk.2.1, logs := disk.2.2 ++ env2.2 }

/-- Lines 108–117: `set`.  A credential key updates only the in-memory field;
any other key updates the mapping.  Either way `save_config` runs. -/
def ConfigManager.set (cm : ConfigManager) (key : String) (value : Value)
    (w : World) : OpResult :=
  let cm2 :=
    if key = "dingtalk_webhook" then { cm with dingtalk_webhook := value }
    else if key = "dingtalk_secret" then { cm with dingtalk_secret := value }
    else { cm with config := cm.config.set key value }
  save_config cm2 w

/-- Lines 99–106: `get`.  Credential keys read the in-memory field (or the
default when the field is falsy); other keys read the mapping. -/
def Value.truthy : Value → Bool
  | .num q => q ≠ 0
  | .str s => !s.isEmpty
  | .list l => !l.isEmpty

/-- Lines 99–106: `get(key, default)` with `default = none` for Python
`None`. -/
def ConfigManager.get (cm : ConfigManager) (key : String)
    (dflt : Option Value) : Option Value :=
  if key = "dingtalk_webhook" then
    if cm.dingtalk_webhook.truthy then some cm.dingtalk_webhook else dflt
  else if key = "dingtalk_secret" then
    if cm.dingtalk_secret.truthy then some cm.dingtalk_secret else dflt
  else
    match cm.config.get? key with
    | some v => some v
    | none => dflt

/-- Lines 119–127: `check_reset_daily_alerts`.  When the stored
`last_alert_date` is not today's string, advance the date, clear
`alerted_funds`, save, and return true; otherwise do nothing and return
false. -/
def ConfigManager.check_reset_daily_alerts (cm : ConfigManager)
    (today : String) (w : World) : Bool × OpResult :=
  if cm.config.get? "last_alert_date" ≠ some (.str today) then
    let cfg2 := (cm.config.set "last_alert_date" (.str today)).set
      "alerted_funds" (.list [])
    (true, save_config { cm with config := cfg2 } w)
  else
    (false, { cm := cm, world := w, writes := [], logs := [] })

/-- The string elements of a stored value, as `code in ...` iterates them;
non-list values give the empty collection. -/
def Value.elems : Value → List String
  | .list l => l
  | _ => []

/-- `self.config.get("alerted_funds", [])` seen as a list of codes. -/
def alertedList (cm : ConfigManager) : List String :=
  (((cm.config.get? "alerted_funds")).getD (.list [])).elems

/-- Sanity of the stored `alerted_funds` value: absent or an actual list
(the shape every state the manager itself produces has; a number or string
there would make the Python code raise in `mark_fund_alerted`). -/
def alertedIsList (cm : ConfigManager) : Bool :=
  match cm.config.get? "alerted_funds" with
  | some (.num _) => false
  | some (.str _) => false
  | _ => true

/-- Lines 129–132: `is_fund_alerted`.  Run the daily reset, then test
membership of `code` in `alerted_funds`. -/
def ConfigManager.is_fund_alerted (cm : ConfigManager) (code today : String)
    (w : World) : Bool × OpResult :=
  let r := (cm.check_reset_daily_alerts today w).2
  ((alertedList r.cm).contains code, r)

/-- Lines 134–141: `mark_fund_alerted`.  Run the daily reset, then append
`code` to `alerted_funds` and save when it is not already present. -/
def ConfigManager.mark_fund_alerted (cm : ConfigManager) (code today : String)
    (w : World) : OpResult :=
  let r := (cm.check_reset_daily_alerts today w).2
  let alerted := alertedList r.cm
  if alerted.contains code then r
  else
    let cfg2 := r.cm.config.set "alerted_funds" (.list (alerted ++ [code]))
    let r2 := save_config { r.cm with config := cfg2 } r.world
    { cm := r2.cm, world := r2.world,
      writes := r.writes ++ r2.writes, logs := r.logs ++ r2.logs }

/-- One call a collaborator can make on the manager, with the inputs the real
call reads from the clock and the environment. -/
inductive Op where
  | load (env : Env)
  | set (key : String) (value : Value)
  | save
  | rollover (today : String)
  | isAlerted (code today : String)
  | markAlerted (code today : String)
deriving DecidableEq, Repr

/-- Run one operation (boolean results discarded). -/
def runOp (cm : ConfigManager) (w : World) : Op → OpResult
  | .load env => load_config env w
  | .set k v => cm.set k v w
  | .save => save_config cm w
  | .rollover d => (cm.check_reset_daily_alerts d w).2
  | .isAlerted c d => (cm.is_fund_alerted c d w).2
  | .markAlerted c d => cm.mark_fund_alerted c d w

/-- Run a sequence of operations, accumulating every file write and log. -/
def runOps (cm : ConfigManager) (w : World) : List Op → OpResult
  | [] => { cm := cm, world := w, writes := [], logs := [] }
  | op :: ops =>
    let r := runOp cm w op
    let r2 := runOps r.cm r.world ops
    { cm := r2.cm, world := r2.world,
      writes := r.writes ++ r2.writes, logs := r.logs ++ r2.logs }

/-- A mapping free of the two credential keys. -/
def NoCredKeys (m : CMap) : Prop :=
  ∀ p ∈ m, p.1 ≠ "dingtalk_webhook" ∧ p.1 ≠ "dingtalk_secret"

instance (m : CMap) : Decidable (NoCredKeys m) := by
  unfold NoCredKeys; infer_instance

/-! ## Lemmas about the mapping primitives -/

namespace CMap

theorem get?_set_self (m : CMap) (k : String) (v : Value) :
    (m.set k v).get? k = some v := by
  induction m with
  | nil => simp [set, get?]
  | cons p rest ih =>
    by_cases h : p.1 = k
    · simp [set, get?, h]
    · simp [set, get?, h, ih]

theorem get?_set_ne (m : CMap) (k k' : String) (v : Value) (h : k' ≠ k) :
    (m.set k v).get? k' = m.get? k' := by
  induction m with
  | nil => simp [set, get?, Ne.symm h]
  | cons p rest ih =>
    by_cases hp : p.1 = k
    · simp [set, get?, hp, Ne.symm h]
    · by_cases hp' : p.1 = k'
      · simp [set, get?, hp, hp', h]
      · simp [set, get?, hp, hp', ih]

theorem get?_erase_self (m : CMap) (k : String) :
    (m.erase k).get? k = none := by
  induction m with
  | nil => simp [erase, get?]
  | cons p rest ih =>
    by_cases h : p.1 = k
    · simp [erase, h, ih]
    · simp [erase, get?, h, ih]

theorem get?_erase_ne (m : CMap) (k k' : String) (h : k' ≠ k) :
    (m.erase k).get? k' = m.get? k' := by
  induction m with
  | nil => simp [erase]
  | cons p rest ih =>
    by_cases hp : p.1 = k
    · simp [erase, get?, hp, Ne.symm h, ih]
    · by_cases hp' : p.1 = k'
      · simp [erase, get?, hp, hp', h]
      · simp [erase, get?, hp, hp', ih]

theorem erase_sublist (m : CMap) (k : String) : (m.erase k).Sublist m := by
  induction m with
  | nil => simp [erase]
  | cons p rest ih =>
    by_cases h : p.1 = k
    · simpa [erase, h] using ih.cons p
    · simpa [erase, h] using ih.cons₂ p

theorem get?_update_of_not_mem (ov : CMap) (base : CMap) (k : String)
    (h : ov.get? k = none) : (base.update ov).get? k = base.get? k := by
  induction ov generalizing base with
  | nil => simp [update]
  | cons p rest ih =>
    obtain ⟨k0, v0⟩ := p
    by_cases hk : k0 = k
    · simp [get?, hk] at h
    · simp only [get?] at h
      rw [update, ih _ (by simpa [hk] using h), get?_set_ne base k0 k v0 (fun hk2 => hk hk2.symm)]

theorem get?_eq_none_of_not_mem (m : CMap) (k : String) (h : k ∉ m.keys) :
    m.get? k = none := by
  induction m with
  | nil => rfl
  | cons p rest ih =>
    simp only [keys, List.map_cons, List.mem_cons, not_or] at h
    simp only [get?, if_neg (fun hp : p.1 = k => h.1 hp.symm)]
    exact ih h.2

theorem get?_update_of_mem (ov : CMap) (base : CMap) (k : String) (v : Value)
    (hnd : (ov.keys).Nodup) (h : ov.get? k = some v) :
    (base.update ov).get? k = some v := by
  induction ov generalizing base with
  | nil => simp [get?] at h
  | cons p rest ih =>
    obtain ⟨k0, v0⟩ := p
    simp only [keys, List.map_cons, List.nodup_cons] at hnd
    by_cases hk : k0 = k
    · have hv : v0 = v := by simpa [get?, hk] using h
      have hnone : get? rest k = none := by
        refine get?_eq_none_of_not_mem rest k (fun hmem => hnd.1 ?_)
        rw [hk]
        simpa [keys] using hmem
      rw [update, get?_update_of_not_mem rest _ k hnone, ← hv, ← hk]
      exact get?_set_self base k0 v0
    · simp only [get?] at h
      rw [if_neg hk] at h
      rw [update]
      exact ih _ (by simpa [keys] using hnd.2) h

theorem keys_nodup_of_sublist {m m' : CMap} (hs : m'.Sublist m)
    (h : (m.keys).Nodup) : (m'.keys).Nodup :=
  (hs.map Prod.fst).nodup h

theorem mem_erase {p : String × Value} (m : CMap) (k : String)
    (h : p ∈ CMap.erase m k) : p ∈ m ∧ p.1 ≠ k := by
  induction m with
  | nil => simp [erase] at h
  | cons q rest ih =>
    by_cases hq : q.1 = k
    · rw [erase, if_pos hq] at h
      obtain ⟨h1, h2⟩ := ih h
      exact ⟨List.mem_cons_of_mem q h1, h2⟩
    · rw [erase, if_neg hq] at h
      rcases List.mem_cons.mp h with h1 | h1
      · exact ⟨by rw [h1]; exact List.mem_cons_self q rest, by rw [h1]; exact hq⟩
      · obtain ⟨h2, h3⟩ := ih h1
        exact ⟨List.mem_cons_of_mem q h2, h3⟩

theorem mem_set {p : String × Value} (m : CMap) (k : String) (v : Value)
    (h : p ∈ CMap.set m k v) : p ∈ m ∨ p = (k, v) := by
  induction m with
  | nil => simp [set] at h; right; exact h
  | cons q rest ih =>
    by_cases hq : q.1 = k
    · rw [set, if_pos hq] at h
      rcases List.mem_cons.mp h with h1 | h1
      · right; exact h1
      · left; exact List.mem_cons_of_mem q h1
    · rw [set, if_neg hq] at h
      rcases List.mem_cons.mp h with h1 | h1
      · left; rw [h1]; exact List.mem_cons_self q rest
      · rcases ih h1 with h2 | h2
        · left; exact List.mem_cons_of_mem q h2
        · right; exact h2

end CMap

/-! ## The credential keys never sit in a stripped mapping, in the merged
configuration, or in any mapping the manager writes to disk -/

theorem noCredKeys_strip (m : CMap) : NoCredKeys (strip m) := by
  intro p hp
  obtain ⟨hp1, hsec⟩ := CMap.mem_erase _ "dingtalk_secret" hp
  obtain ⟨_, hweb⟩ := CMap.mem_erase _ "dingtalk_webhook" hp1
  exact ⟨hweb, hsec⟩

theorem noCredKeys_set (m : CMap) (k : String) (v : Value)
    (h : NoCredKeys m) (h1 : k ≠ "dingtalk_webhook")
    (h2 : k ≠ "dingtalk_secret") : NoCredKeys (m.set k v) := by
  intro p hp
  rcases CMap.mem_set m k v hp with hm | he
  · exact h p hm
  · rw [he]
    exact ⟨h1, h2⟩

theorem noCredKeys_update (base ov : CMap) (hb : NoCredKeys base)
    (ho : NoCredKeys ov) : NoCredKeys (base.update ov) := by
  induction ov generalizing base with
  | nil => exact hb
  | cons p rest ih =>
    rw [CMap.update]
    have hp := ho p (List.mem_cons_self p rest)
    exact ih (base.set p.1 p.2)
      (noCredKeys_set base p.1 p.2 hb hp.1 hp.2)
      (fun q hq => ho q (List.mem_cons_of_mem p hq))

theorem noCredKeys_default : NoCredKeys default_config := by decide

theorem noCredKeys_applyEnvOverride (cfg : CMap) (o : Option String)
    (key : String) (h : NoCredKeys cfg) (h1 : key ≠ "dingtalk_webhook")
    (h2 : key ≠ "dingtalk_secret") :
    NoCredKeys (applyEnvOverride cfg o key).1 := by
  unfold applyEnvOverride
  match o with
  | none => exact h
  | some s =>
    dsimp only
    split
    · exact h
    · split
      · exact noCredKeys_set cfg key _ h h1 h2
      · exact h

theorem noCredKeys_applyEnvOverrides (cfg : CMap) (env : Env)
    (h : NoCredKeys cfg) : NoCredKeys (applyEnvOverrides cfg env).1 := by
  unfold applyEnvOverrides
  exact noCredKeys_applyEnvOverride _ _ _
    (noCredKeys_applyEnvOverride _ _ _ h (by decide) (by decide))
    (by decide) (by decide)

theorem noCredKeys_mergedConfig (w : World) : NoCredKeys (mergedConfig w) := by
  unfold mergedConfig
  match w.file with
  | some (.parsed saved) =>
    exact noCredKeys_update _ _ noCredKeys_default (noCredKeys_strip saved)
  | some .malformed => exact noCredKeys_default
  | none => exact noCredKeys_default

theorem load_config_noCredKeys (env : Env) (w : World) :
    NoCredKeys (load_config env w).cm.config :=
  noCredKeys_applyEnvOverrides _ env (noCredKeys_mergedConfig w)

theorem save_config_cm (cm : ConfigManager) (w : World) :
    (save_config cm w).cm = cm := by
  unfold save_config
  split <;> rfl

theorem save_config_writes (cm : ConfigManager) (w : World) :
    ∀ m ∈ (save_config cm w).writes, m = strip cm.config := by
  unfold save_config
  split <;> simp

theorem rollover_noCredKeys (cm : ConfigManager) (today : String) (w : World)
    (h : NoCredKeys cm.config) :
    NoCredKeys (cm.check_reset_daily_alerts today w).2.cm.config := by
  unfold ConfigManager.check_reset_daily_alerts
  split
  · rw [save_config_cm]
    exact noCredKeys_set _ _ _
      (noCredKeys_set _ _ _ h (by decide) (by decide)) (by decide) (by decide)
  · exact h

theorem mark_noCredKeys (cm : ConfigManager) (code today : String) (w : World)
    (h : NoCredKeys cm.config) :
    NoCredKeys (cm.mark_fund_alerted code today w).cm.config := by
  unfold ConfigManager.mark_fund_alerted
  have hr := rollover_noCredKeys cm today w h
  dsimp only
  split
  · exact hr
  · dsimp only
    rw [save_config_cm]
    exact noCredKeys_set _ _ _ hr (by decide) (by decide)

theorem runOp_noCredKeys (cm : ConfigManager) (w : World) (op : Op)
    (h : NoCredKeys cm.config) : NoCredKeys (runOp cm w op).cm.config := by
  match op with
  | .load env => exact load_config_noCredKeys env w
  | .set k v =>
    unfold runOp ConfigManager.set
    rw [save_config_cm]
    split
    · exact h
    · split
      · exact h
      · next h1 h2 => exact noCredKeys_set _ _ _ h h1 h2
  | .save =>
    unfold runOp
    rw [save_config_cm]
    exact h
  | .rollover d => exact rollover_noCredKeys cm d w h
  | .isAlerted c d =>
    unfold runOp ConfigManager.is_fund_alerted
    exact rollover_noCredKeys cm d w h
  | .markAlerted c d => exact mark_noCredKeys cm c d w h

theorem runOps_noCredKeys (cm : ConfigManager) (w : World) (ops : List Op)
    (h : NoCredKeys cm.config) : NoCredKeys (runOps cm w ops).cm.config := by
  induction ops generalizing cm w with
  | nil => exact h
  | cons op rest ih =>
    rw [runOps]
    exact ih _ _ (runOp_noCredKeys cm w op h)

theorem save_config_writes_noCredKeys (cm : ConfigManager) (w : World) :
    ∀ m ∈ (save_config cm w).writes, NoCredKeys m := by
  intro m hm
  rw [save_config_writes cm w m hm]
  exact noCredKeys_strip _

theorem load_config_writes_noCredKeys (env : Env) (w : World) :
    ∀ m ∈ (load_config env w).writes, NoCredKeys m := by
  intro m hm
  unfold load_config at hm
  dsimp only at hm
  cases hfile : w.file with
  | none =>
    rw [hfile] at hm
    exact save_config_writes_noCredKeys _ _ m hm
  | some f =>
    cases f with
    | parsed saved => rw [hfile] at hm; simp at hm
    | malformed => rw [hfile] at hm; simp at hm

theorem rollover_writes_noCredKeys (cm : ConfigManager) (today : String)
    (w : World) :
    ∀ m ∈ (cm.check_reset_daily_alerts today w).2.writes, NoCredKeys m := by
  intro m hm
  unfold ConfigManager.check_reset_daily_alerts at hm
  dsimp only at hm
  split at hm
  · exact save_config_writes_noCredKeys _ _ m hm
  · simp at hm

theorem mark_writes_noCredKeys (cm : ConfigManager) (code today : String)
    (w : World) :
    ∀ m ∈ (cm.mark_fund_alerted code today w).writes, NoCredKeys m := by
  intro m hm
  unfold ConfigManager.mark_fund_alerted at hm
  dsimp only at hm
  split at hm
  · exact rollover_writes_noCredKeys cm today w m hm
  · dsimp only at hm
    rcases List.mem_append.mp hm with h1 | h1
    · exact rollover_writes_noCredKeys cm today w m h1
    · exact save_config_writes_noCredKeys _ _ m h1

theorem runOp_writes_noCredKeys (cm : ConfigManager) (w : World) (op : Op) :
    ∀ m ∈ (runOp cm w op).writes, NoCredKeys m := by
  match op with
  | .load env => exact load_config_writes_noCredKeys env w
  | .set k v =>
    intro m hm
    unfold runOp ConfigManager.set at hm
    exact save_config_writes_noCredKeys _ _ m hm
  | .save => exact save_config_writes_noCredKeys cm w
  | .rollover d => exact rollover_writes_noCredKeys cm d w
  | .isAlerted c d =>
    intro m hm
    unfold runOp ConfigManager.is_fund_alerted at hm
    exact rollover_writes_noCredKeys cm d w m hm
  | .markAlerted c d => exact mark_writes_noCredKeys cm c d w

theorem runOps_writes_noCredKeys (cm : ConfigManager) (w : World)
    (ops : List Op) : ∀ m ∈ (runOps cm w ops).writes, NoCredKeys m := by
  induction ops generalizing cm w with
  | nil => intro m hm; simp [runOps] at hm
  | cons op rest ih =>
    intro m hm
    rw [runOps] at hm
    dsimp only at hm
    rcases List.mem_append.mp hm with h1 | h1
    · exact runOp_writes_noCredKeys cm w op m h1
    · exact ih _ _ m h1

/-! ## Daily rollover: behaviour of `check_reset_daily_alerts` -/

theorem rollover_noop (cm : ConfigManager) (today : String) (w : World)
    (h : cm.config.get? "last_alert_date" = some (.str today)) :
    cm.check_reset_daily_alerts today w =
      (false, { cm := cm, world := w, writes := [], logs := [] }) := by
  unfold ConfigManager.check_reset_daily_alerts
  rw [if_neg (fun hne => hne h)]

theorem rollover_returns_true_iff (cm : ConfigManager) (today : String)
    (w : World) :
    (cm.check_reset_daily_alerts today w).1 = true ↔
      cm.config.get? "last_alert_date" ≠ some (.str today) := by
  unfold ConfigManager.check_reset_daily_alerts
  dsimp only
  split
  · next h => simpa using h
  · next h => exact iff_of_false (by simp) h

theorem rollover_last_alert_date (cm : ConfigManager) (today : String)
    (w : World) :
    (cm.check_reset_daily_alerts today w).2.cm.config.get?
      "last_alert_date" = some (.str today) := by
  unfold ConfigManager.check_reset_daily_alerts
  dsimp only
  split
  · rw [save_config_cm]
    dsimp only
    rw [CMap.get?_set_ne _ _ _ _ (by decide), CMap.get?_set_self]
  · next h => simpa using not_not.mp (by simpa using h)

theorem rollover_alerted_of_reset (cm : ConfigManager) (today : String)
    (w : World) (h : cm.config.get? "last_alert_date" ≠ some (.str today)) :
    alertedList (cm.check_reset_daily_alerts today w).2.cm = [] := by
  unfold ConfigManager.check_reset_daily_alerts
  rw [if_pos h]
  dsimp only
  rw [save_config_cm]
  unfold alertedList
  rw [CMap.get?_set_self]
  rfl

theorem rollover_cm_of_reset (cm : ConfigManager) (today : String) (w : World)
    (h : cm.config.get? "last_alert_date" ≠ some (.str today)) :
    (cm.check_reset_daily_alerts today w).2.cm =
      { cm with
        config := CMap.set
          (CMap.set cm.config "last_alert_date" (.str today)) "alerted_funds"
          (.list []) } := by
  unfold ConfigManager.check_reset_daily_alerts
  rw [if_pos h]
  dsimp only
  rw [save_config_cm]

/-! ## Marking funds alerted: behaviour of `mark_fund_alerted` -/

theorem mark_cm (cm : ConfigManager) (code today : String) (w : World) :
    (cm.mark_fund_alerted code today w).cm =
      (if (alertedList (cm.check_reset_daily_alerts today w).2.cm).contains
          code then
        (cm.check_reset_daily_alerts today w).2.cm
      else
        { (cm.check_reset_daily_alerts today w).2.cm with
          config := CMap.set
              ((cm.check_reset_daily_alerts today w).2.cm.config)
              "alerted_funds"
              (.list (alertedList (cm.check_reset_daily_alerts today w).2.cm
                ++ [code])) }) := by
  unfold ConfigManager.mark_fund_alerted
  dsimp only
  split <;> simp_all [save_config_cm]

theorem mark_last_alert_date (cm : ConfigManager) (code today : String)
    (w : World) :
    (cm.mark_fund_alerted code today w).cm.config.get? "last_alert_date" =
      some (.str today) := by
  rw [mark_cm]
  split
  · exact rollover_last_alert_date cm today w
  · dsimp only
    rw [CMap.get?_set_ne _ _ _ _ (by decide)]
    exact rollover_last_alert_date cm today w

theorem mark_alertedList (cm : ConfigManager) (code today : String)
    (w : World) :
    alertedList (cm.mark_fund_alerted code today w).cm =
      (if (alertedList (cm.check_reset_daily_alerts today w).2.cm).contains
          code then
        alertedList (cm.check_reset_daily_alerts today w).2.cm
      else
        alertedList (cm.check_reset_daily_alerts today w).2.cm ++ [code]) := by
  rw [mark_cm]
  split
  · rfl
  · unfold alertedList
    dsimp only
    rw [CMap.get?_set_self]
    rfl

theorem mark_mem (cm : ConfigManager) (code today : String) (w : World) :
    code ∈ alertedList (cm.mark_fund_alerted code today w).cm := by
  rw [mark_alertedList]
  split
  · next h => exact List.mem_of_elem_eq_true h
  · exact List.mem_append_right _ (List.mem_singleton.mpr rfl)

theorem mark_noop (cm : ConfigManager) (code today : String) (w : World)
    (hd : cm.config.get? "last_alert_date" = some (.str today))
    (hmem : code ∈ alertedList cm) :
    cm.mark_fund_alerted code today w =
      { cm := cm, world := w, writes := [], logs := [] } := by
  unfold ConfigManager.mark_fund_alerted
  rw [rollover_noop cm today w hd]
  dsimp only
  rw [if_pos (List.elem_eq_true_of_mem hmem)]

/-! ## Environment overrides and the load-time merge -/

theorem applyEnvOverride_of_none (cfg : CMap) (key : String) :
    applyEnvOverride cfg none key = (cfg, []) := rfl

theorem applyEnvOverride_fst_of_not_applies (cfg : CMap) (o : Option String)
    (key : String) (h : overrideApplies o = false) :
    (applyEnvOverride cfg o key).1 = cfg := by
  match o with
  | none => rfl
  | some s =>
    unfold overrideApplies at h
    unfold applyEnvOverride
    dsimp only
    by_cases he : s.isEmpty
    · rw [if_pos he]
    · rw [if_neg he]
      rw [Bool.and_eq_false_iff] at h
      rcases h with h | h
      · have hb : s.isEmpty = true := by
          cases hb2 : s.isEmpty
          · rw [hb2] at h; simp at h
          · rfl
        exact absurd hb he
      · cases hp : pyFloat s with
        | none => rfl
        | some q => rw [hp] at h; simp at h

theorem applyEnvOverride_logs_of_parse_failure (cfg : CMap) (s key : String)
    (he : s.isEmpty = false) (hp : pyFloat s = none) :
    (applyEnvOverride cfg (some s) key).2 =
      ["环境变量格式错误: " ++ key ++ "=" ++ s] := by
  unfold applyEnvOverride
  dsimp only
  rw [if_neg (by rw [he]; exact Bool.false_ne_true), hp]

theorem applyEnvOverride_fst_of_parse_failure (cfg : CMap) (s key : String)
    (hp : pyFloat s = none) :
    (applyEnvOverride cfg (some s) key).1 = cfg := by
  unfold applyEnvOverride
  dsimp only
  by_cases he : s.isEmpty
  · rw [if_pos he]
  · rw [if_neg he, hp]

theorem applyEnvOverride_get?_of_applies (cfg : CMap) (s key : String)
    (q : ℚ) (he : s.isEmpty = false) (hq : pyFloat s = some q) :
    (applyEnvOverride cfg (some s) key).1.get? key = some (.num q) := by
  unfold applyEnvOverride
  dsimp only
  rw [if_neg (by rw [he]; exact Bool.false_ne_true), hq]
  exact CMap.get?_set_self cfg key (.num q)

theorem applyEnvOverride_get?_ne (cfg : CMap) (o : Option String)
    (key k : String) (hk : k ≠ key) :
    (applyEnvOverride cfg o key).1.get? k = cfg.get? k := by
  match o with
  | none => rfl
  | some s =>
    unfold applyEnvOverride
    dsimp only
    by_cases he : s.isEmpty
    · rw [if_pos he]
    · rw [if_neg he]
      cases hp : pyFloat s with
      | none => rfl
      | some q => exact CMap.get?_set_ne cfg key k (.num q) hk

theorem applyEnvOverrides_of_none (cfg : CMap) (env : Env)
    (h1 : env.premiumThreshold = none) (h2 : env.discountThreshold = none) :
    applyEnvOverrides cfg env = (cfg, []) := by
  unfold applyEnvOverrides
  rw [h1, h2]
  rfl

theorem applyEnvOverrides_get?_of_not_defined (cfg : CMap) (env : Env)
    (k : String) (h : envDefines env k = false) :
    (applyEnvOverrides cfg env).1.get? k = cfg.get? k := by
  unfold envDefines at h
  rw [Bool.or_eq_false_iff, Bool.and_eq_false_iff, Bool.and_eq_false_iff] at h
  unfold applyEnvOverrides
  dsimp only
  by_cases hk1 : k = "premium_threshold"
  · have hap : overrideApplies env.premiumThreshold = false := by
      rcases h.1 with h1 | h1
      · rw [decide_eq_false_iff_not] at h1; exact absurd hk1 h1
      · exact h1
    rw [applyEnvOverride_get?_ne _ _ _ k (by rw [hk1]; decide),
      applyEnvOverride_fst_of_not_applies cfg _ _ hap]
  · by_cases hk2 : k = "discount_threshold"
    · have hap : overrideApplies env.discountThreshold = false := by
        rcases h.2 with h2 | h2
        · rw [decide_eq_false_iff_not] at h2; exact absurd hk2 h2
        · exact h2
      rw [applyEnvOverride_fst_of_not_applies _ _ _ hap,
        applyEnvOverride_get?_ne _ _ _ k hk1]
    · rw [applyEnvOverride_get?_ne _ _ _ k hk2,
        applyEnvOverride_get?_ne _ _ _ k hk1]

theorem get?_strip_ne (m : CMap) (k : String) (h1 : k ≠ "dingtalk_webhook")
    (h2 : k ≠ "dingtalk_secret") : (strip m).get? k = m.get? k := by
  unfold strip
  rw [CMap.get?_erase_ne _ _ _ h2, CMap.get?_erase_ne _ _ _ h1]

theorem get?_strip_of_none (m : CMap) (k : String) (h : m.get? k = none) :
    (strip m).get? k = none := by
  by_cases h1 : k = "dingtalk_webhook"
  · unfold strip
    rw [h1, CMap.get?_erase_ne _ _ _ (by decide), CMap.get?_erase_self]
  · by_cases h2 : k = "dingtalk_secret"
    · unfold strip
      rw [h2, CMap.get?_erase_self]
    · rw [get?_strip_ne m k h1 h2, h]

theorem strip_sublist (m : CMap) : (strip m).Sublist m :=
  (CMap.erase_sublist _ _).trans (CMap.erase_sublist _ _)

theorem save_config_world_of_writable (cm : ConfigManager) (w : World)
    (hw : w.writable = true) :
    (save_config cm w).world =
      { w with file := some (.parsed (strip cm.config)) } := by
  unfold save_config
  rw [if_pos hw]

theorem load_config_cm_config (env : Env) (w : World) :
    (load_config env w).cm.config =
      (applyEnvOverrides (mergedConfig w) env).1 := by
  unfold load_config
  cases hfile : w.file with
  | none => rfl
  | some f => cases f <;> rfl

theorem load_config_logs_env (env : Env) (w : World) (x : String)
    (hx : x ∈ (applyEnvOverrides (mergedConfig w) env).2) :
    x ∈ (load_config env w).logs := by
  unfold load_config
  dsimp only
  exact List.mem_append_right _ hx

/-! ## The claims -/

/-- C1: for every sequence of operations (load, set, save, rollover,
mark_fund_alerted) run from any state, every mapping `save_config` writes to
the configuration file is free of the credential keys `dingtalk_webhook` and
`dingtalk_secret`, even when a caller passes a credential key to `set` as if
it were an ordinary key. -/
theorem C1_saved_file_never_contains_credential_keys (cm : ConfigManager)
    (w : World) (ops : List Op) :
    ∀ m ∈ (runOps cm w ops).writes, NoCredKeys m :=
  runOps_writes_noCredKeys cm w ops

theorem C1_witness :
    NoCredKeys [("mode", Value.str "ui")] :=
  C1_saved_file_never_contains_credential_keys
    ⟨[("dingtalk_webhook", .str "hook"), ("mode", .str "ui"),
      ("dingtalk_secret", .str "sec")], .str "", .str ""⟩
    ⟨none, true⟩ [.set "dingtalk_webhook" (.str "other")]
    [("mode", Value.str "ui")] (by decide)

/-- C2: with the current date fixed, the first call to
`check_reset_daily_alerts` returns true exactly when the stored
`last_alert_date` differs from today, and then clears `alerted_funds` and
advances the date; the second call returns false and leaves the manager,
the world and the file untouched (no write, no log). -/
theorem C2_rollover_once_per_day (cm : ConfigManager) (today : String)
    (w : World) :
    ((cm.check_reset_daily_alerts today w).1 = true ↔
      cm.config.get? "last_alert_date" ≠ some (.str today))
  ∧ ((cm.check_reset_daily_alerts today w).1 = true →
      alertedList (cm.check_reset_daily_alerts today w).2.cm = [] ∧
      (cm.check_reset_daily_alerts today w).2.cm.config.get?
        "last_alert_date" = some (.str today))
  ∧ ((cm.check_reset_daily_alerts today w).2.cm.check_reset_daily_alerts
      today (cm.check_reset_daily_alerts today w).2.world) =
    (false,
      { cm := (cm.check_reset_daily_alerts today w).2.cm,
        world := (cm.check_reset_daily_alerts today w).2.world,
        writes := [], logs := [] }) := by
  refine ⟨rollover_returns_true_iff cm today w, fun h => ?_, ?_⟩
  · exact ⟨rollover_alerted_of_reset cm today w
      ((rollover_returns_true_iff cm today w).mp h),
      rollover_last_alert_date cm today w⟩
  · exact rollover_noop _ today _ (rollover_last_alert_date cm today w)

/-- C3: marking the same fund code alerted twice on one day leaves
`alerted_funds` with exactly one occurrence of the code, and the second call
changes nothing and writes nothing (no duplicate entry).  The hypotheses say
the starting state is sane: `alerted_funds` holds a list, and the code is not
already duplicated in it. -/
theorem C3_mark_twice_single_occurrence (cm : ConfigManager)
    (code today : String) (w : World)
    (hcount : List.count code (alertedList cm) ≤ 1)
    (_hshape : alertedIsList cm = true) :
    List.count code
      (alertedList ((cm.mark_fund_alerted code today w).cm.mark_fund_alerted
        code today (cm.mark_fund_alerted code today w).world).cm) = 1
  ∧ ((cm.mark_fund_alerted code today w).cm.mark_fund_alerted code today
      (cm.mark_fund_alerted code today w).world) =
    { cm := (cm.mark_fund_alerted code today w).cm,
      world := (cm.mark_fund_alerted code today w).world,
      writes := [], logs := [] } := by
  have hnoop := mark_noop (cm.mark_fund_alerted code today w).cm code today
    (cm.mark_fund_alerted code today w).world
    (mark_last_alert_date cm code today w) (mark_mem cm code today w)
  refine ⟨?_, hnoop⟩
  rw [hnoop]
  dsimp only
  rw [mark_alertedList]
  by_cases hd : cm.config.get? "last_alert_date" = some (.str today)
  · rw [rollover_noop cm today w hd]
    dsimp only
    by_cases hmem : code ∈ alertedList cm
    · rw [if_pos (List.elem_eq_true_of_mem hmem)]
      have h1 : 1 ≤ List.count code (alertedList cm) :=
        List.count_pos_iff.mpr hmem
      omega
    · rw [if_neg (by simpa using hmem)]
      rw [List.count_append, List.count_eq_zero.mpr hmem]
      simp
  · rw [rollover_alerted_of_reset cm today w hd]
    simp

theorem C3_witness :
    List.count "X"
      (alertedList
        ((ConfigManager.mark_fund_alerted
            ⟨default_config, .str "", .str ""⟩ "X" "2026-05-01"
            ⟨none, true⟩).cm.mark_fund_alerted "X" "2026-05-01"
          (ConfigManager.mark_fund_alerted ⟨default_config, .str "", .str ""⟩
            "X" "2026-05-01" ⟨none, true⟩).world).cm) = 1
  ∧ ((ConfigManager.mark_fund_alerted ⟨default_config, .str "", .str ""⟩
        "X" "2026-05-01" ⟨none, true⟩).cm.mark_fund_alerted "X" "2026-05-01"
      (ConfigManager.mark_fund_alerted ⟨default_config, .str "", .str ""⟩
        "X" "2026-05-01" ⟨none, true⟩).world) =
    { cm := (ConfigManager.mark_fund_alerted ⟨default_config, .str "", .str ""⟩
        "X" "2026-05-01" ⟨none, true⟩).cm,
      world := (ConfigManager.mark_fund_alerted
        ⟨default_config, .str "", .str ""⟩
        "X" "2026-05-01" ⟨none, true⟩).world,
      writes := [], logs := [] } :=
  C3_mark_twice_single_occurrence ⟨default_config, .str "", .str ""⟩
    "X" "2026-05-01" ⟨none, true⟩ (by decide) (by decide)

/-- C4: marking a code alerted on one date and then asking
`is_fund_alerted` for the same code on a different date yields false: the
rollover run inside `is_fund_alerted` clears `alerted_funds` before the
membership test. -/
theorem C4_rollover_clears_alerted_on_new_date (cm : ConfigManager)
    (code d1 d2 : String) (w : World) (hne : d2 ≠ d1) :
    ((cm.mark_fund_alerted code d1 w).cm.is_fund_alerted code d2
      (cm.mark_fund_alerted code d1 w).world).1 = false := by
  unfold ConfigManager.is_fund_alerted
  dsimp only
  have hd2 : (cm.mark_fund_alerted code d1 w).cm.config.get?
      "last_alert_date" ≠ some (.str d2) := by
    rw [mark_last_alert_date cm code d1 w]
    intro hcon
    exact hne (Value.str.inj (Option.some.inj hcon)).symm
  rw [rollover_alerted_of_reset _ d2 _ hd2]
  rfl

theorem C4_witness :
    ((ConfigManager.mark_fund_alerted ⟨default_config, .str "", .str ""⟩
      "X" "2026-05-01" ⟨none, true⟩).cm.is_fund_alerted "X" "2026-05-02"
      (ConfigManager.mark_fund_alerted ⟨default_config, .str "", .str ""⟩
        "X" "2026-05-01" ⟨none, true⟩).world).1 = false :=
  C4_rollover_clears_alerted_on_new_date ⟨default_config, .str "", .str ""⟩
    "X" "2026-05-01" "2026-05-02" ⟨none, true⟩ (by decide)

/-- C5: `save_config` followed by `load_config` (no threshold environment
overrides set, writable file) restores every non-credential key of the
mapping to its pre-save value. -/
theorem C5_save_load_roundtrip (cm : ConfigManager) (w : World) (env : Env)
    (k : String) (v : Value)
    (hw : w.writable = true)
    (h1 : env.premiumThreshold = none) (h2 : env.discountThreshold = none)
    (hnd : (cm.config.keys).Nodup)
    (hk1 : k ≠ "dingtalk_webhook") (hk2 : k ≠ "dingtalk_secret")
    (hv : cm.config.get? k = some v) :
    (load_config env (save_config cm w).world).cm.config.get? k = some v := by
  rw [load_config_cm_config, applyEnvOverrides_of_none _ env h1 h2]
  dsimp only
  unfold mergedConfig
  rw [save_config_world_of_writable cm w hw]
  dsimp only
  apply CMap.get?_update_of_mem
  · exact CMap.keys_nodup_of_sublist (strip_sublist _)
      (CMap.keys_nodup_of_sublist (strip_sublist _) hnd)
  · rw [get?_strip_ne _ _ hk1 hk2, get?_strip_ne _ _ hk1 hk2]
    exact hv

theorem C5_witness :
    (load_config ⟨none, none, none, none⟩
      (save_config ⟨default_config, .str "", .str ""⟩
        ⟨none, true⟩).world).cm.config.get? "mode" = some (.str "ui") :=
  C5_save_load_roundtrip ⟨default_config, .str "", .str ""⟩ ⟨none, true⟩
    ⟨none, none, none, none⟩ "mode" (.str "ui") rfl rfl rfl (by decide)
    (by decide) (by decide) (by decide)

/-- C6: `load_config` merges in strict precedence order — defaults, then
the parsed file (per key, disk wins), then the threshold environment
overrides (per key, environment wins): a key defined by a later layer ends
with that later layer's value. -/
theorem C6_load_layer_precedence (env : Env) (w : World) (saved : CMap)
    (hfile : w.file = some (.parsed saved))
    (hnd : (saved.keys).Nodup) :
    (∀ k v, k ≠ "dingtalk_webhook" → k ≠ "dingtalk_secret" →
      CMap.get? saved k = some v → envDefines env k = false →
      (load_config env w).cm.config.get? k = some v)
  ∧ (∀ k v, CMap.get? default_config k = some v → CMap.get? saved k = none →
      envDefines env k = false →
      (load_config env w).cm.config.get? k = some v)
  ∧ (∀ s q, env.premiumThreshold = some s → s.isEmpty = false →
      pyFloat s = some q →
      (load_config env w).cm.config.get? "premium_threshold" =
        some (.num q))
  ∧ (∀ s q, env.discountThreshold = some s → s.isEmpty = false →
      pyFloat s = some q →
      (load_config env w).cm.config.get? "discount_threshold" =
        some (.num q)) := by
  have hmc : mergedConfig w = default_config.update (strip saved) := by
    unfold mergedConfig
    rw [hfile]
  refine ⟨?_, ?_, ?_, ?_⟩
  · intro k v hk1 hk2 hv he
    rw [load_config_cm_config, applyEnvOverrides_get?_of_not_defined _ env k
      he, hmc]
    apply CMap.get?_update_of_mem
    · exact CMap.keys_nodup_of_sublist (strip_sublist saved) hnd
    · rw [get?_strip_ne _ _ hk1 hk2]
      exact hv
  · intro k v hvd hvs he
    rw [load_config_cm_config, applyEnvOverrides_get?_of_not_defined _ env k
      he, hmc]
    rw [CMap.get?_update_of_not_mem _ _ k (get?_strip_of_none saved k hvs)]
    exact hvd
  · intro s q hs he hq
    rw [load_config_cm_config]
    unfold applyEnvOverrides
    dsimp only
    rw [applyEnvOverride_get?_ne _ _ _ _ (by decide), hs]
    exact applyEnvOverride_get?_of_applies _ s _ q he hq
  · intro s q hs he hq
    rw [load_config_cm_config]
    unfold applyEnvOverrides
    dsimp only
    rw [hs]
    exact applyEnvOverride_get?_of_applies _ s _ q he hq

theorem C6_witness :
    (∀ k v, k ≠ "dingtalk_webhook" → k ≠ "dingtalk_secret" →
      CMap.get? [("mode", Value.str "terminal")] k = some v →
      envDefines ⟨some "abc", none, none, none⟩ k = false →
      (load_config ⟨some "abc", none, none, none⟩
        ⟨some (.parsed [("mode", Value.str "terminal")]),
          true⟩).cm.config.get? k = some v)
  ∧ (∀ k v, CMap.get? default_config k = some v →
      CMap.get? [("mode", Value.str "terminal")] k = none →
      envDefines ⟨some "abc", none, none, none⟩ k = false →
      (load_config ⟨some "abc", none, none, none⟩
        ⟨some (.parsed [("mode", Value.str "terminal")]),
          true⟩).cm.config.get? k = some v)
  ∧ (∀ s q, (⟨some "abc", none, none, none⟩ : Env).premiumThreshold =
        some s → s.isEmpty = false → pyFloat s = some q →
      (load_config ⟨some "abc", none, none, none⟩
        ⟨some (.parsed [("mode", Value.str "terminal")]),
          true⟩).cm.config.get? "premium_threshold" = some (.num q))
  ∧ (∀ s q, (⟨some "abc", none, none, none⟩ : Env).discountThreshold =
        some s → s.isEmpty = false → pyFloat s = some q →
      (load_config ⟨some "abc", none, none, none⟩
        ⟨some (.parsed [("mode", Value.str "terminal")]),
          true⟩).cm.config.get? "discount_threshold" = some (.num q)) :=
  C6_load_layer_precedence ⟨some "abc", none, none, none⟩
    ⟨some (.parsed [("mode", Value.str "terminal")]), true⟩
    [("mode", Value.str "terminal")] rfl (by decide)

/-- C7: when the configuration file exists but fails to parse, load logs the
failure and ends with the defaults alone (no key of the unreadable file is
merged, and with no threshold overrides set the mapping is exactly the
defaults); nothing is raised, written or changed in the world. -/
theorem C7_parse_failure_defaults_no_merge (env : Env) (w : World)
    (hfile : w.file = some .malformed)
    (h1 : env.premiumThreshold = none) (h2 : env.discountThreshold = none) :
    (load_config env w).cm.config = default_config
  ∧ "读取配置文件失败，使用默认配置" ∈ (load_config env w).logs
  ∧ (load_config env w).world = w
  ∧ (load_config env w).writes = [] := by
  have hmc : mergedConfig w = default_config := by
    unfold mergedConfig
    rw [hfile]
  unfold load_config
  rw [hfile, hmc, applyEnvOverrides_of_none _ env h1 h2]
  exact ⟨rfl, by simp, rfl, rfl⟩

theorem C7_witness :
    (load_config ⟨none, none, none, none⟩
      ⟨some .malformed, true⟩).cm.config = default_config
  ∧ "读取配置文件失败，使用默认配置" ∈
      (load_config ⟨none, none, none, none⟩ ⟨some .malformed, true⟩).logs
  ∧ (load_config ⟨none, none, none, none⟩ ⟨some .malformed, true⟩).world =
      ⟨some .malformed, true⟩
  ∧ (load_config ⟨none, none, none, none⟩ ⟨some .malformed, true⟩).writes =
      [] :=
  C7_parse_failure_defaults_no_merge ⟨none, none, none, none⟩
    ⟨some .malformed, true⟩ rfl rfl rfl

/-- C8: a threshold environment variable set to a non-numeric value makes
load log a format error and leave the corresponding mapping value at its
merged (pre-override) value; a numeric value overwrites the mapping value
with its float parse.  Nothing is raised either way. -/
theorem C8_threshold_env_override_best_effort (env : Env) (w : World) :
    (∀ s, env.premiumThreshold = some s → s.isEmpty = false →
      pyFloat s = none →
      (load_config env w).cm.config.get? "premium_threshold" =
          (mergedConfig w).get? "premium_threshold"
        ∧ ("环境变量格式错误: premium_threshold=" ++ s) ∈
            (load_config env w).logs)
  ∧ (∀ s q, env.premiumThreshold = some s → s.isEmpty = false →
      pyFloat s = some q →
      (load_config env w).cm.config.get? "premium_threshold" =
        some (.num q))
  ∧ (∀ s, env.discountThreshold = some s → s.isEmpty = false →
      pyFloat s = none →
      (load_config env w).cm.config.get? "discount_threshold" =
          (mergedConfig w).get? "discount_threshold"
        ∧ ("环境变量格式错误: discount_threshold=" ++ s) ∈
            (load_config env w).logs)
  ∧ (∀ s q, env.discountThreshold = some s → s.isEmpty = false →
      pyFloat s = some q →
      (load_config env w).cm.config.get? "discount_threshold" =
        some (.num q)) := by
  refine ⟨fun s hs he hp => ⟨?_, ?_⟩, fun s q hs he hq => ?_,
    fun s hs he hp => ⟨?_, ?_⟩, fun s q hs he hq => ?_⟩
  · rw [load_config_cm_config]
    unfold applyEnvOverrides
    dsimp only
    rw [applyEnvOverride_get?_ne _ _ _ _ (by decide), hs,
      applyEnvOverride_fst_of_parse_failure _ s _ hp]
  · apply load_config_logs_env
    unfold applyEnvOverrides
    dsimp only
    apply List.mem_append_left
    rw [hs, applyEnvOverride_logs_of_parse_failure _ s _ he hp]
    rw [show ("环境变量格式错误: " ++ "premium_threshold" ++ "=") =
      "环境变量格式错误: premium_threshold=" from rfl]
    exact List.mem_singleton.mpr rfl
  · rw [load_config_cm_config]
    unfold applyEnvOverrides
    dsimp only
    rw [applyEnvOverride_get?_ne _ _ _ _ (by decide), hs]
    exact applyEnvOverride_get?_of_applies _ s _ q he hq
  · rw [load_config_cm_config]
    unfold applyEnvOverrides
    dsimp only
    rw [hs, applyEnvOverride_fst_of_parse_failure _ s _ hp,
      applyEnvOverride_get?_ne _ _ _ _ (by decide)]
  · apply load_config_logs_env
    unfold applyEnvOverrides
    dsimp only
    apply List.mem_append_right
    rw [hs, applyEnvOverride_logs_of_parse_failure _ s _ he hp]
    rw [show ("环境变量格式错误: " ++ "discount_threshold" ++ "=") =
      "环境变量格式错误: discount_threshold=" from rfl]
    exact List.mem_singleton.mpr rfl
  · rw [load_config_cm_config]
    unfold applyEnvOverrides
    dsimp only
    rw [hs]
    exact applyEnvOverride_get?_of_applies _ s _ q he hq

/-- C9: calling `set` with one of the two credential keys still runs a full
`save_config`: with a writable file the configuration file is rewritten with
the current non-credential mapping, while the in-memory mapping itself is
unchanged by the call. -/
theorem C9_credential_set_triggers_save (cm : ConfigManager) (w : World)
    (key : String) (v : Value) (hw : w.writable = true)
    (hk : key = "dingtalk_webhook" ∨ key = "dingtalk_secret") :
    (cm.set key v w).cm.config = cm.config
  ∧ (cm.set key v w).world.file = some (.parsed (strip cm.config))
  ∧ (cm.set key v w).writes = [strip cm.config] := by
  rcases hk with h | h <;> subst h <;>
    simp [ConfigManager.set, save_config, hw]

theorem C9_witness :
    (ConfigManager.set ⟨[("mode", Value.str "ui")], .str "", .str ""⟩
      "dingtalk_webhook" (.str "W") ⟨none, true⟩).cm.config =
        [("mode", Value.str "ui")]
  ∧ (ConfigManager.set ⟨[("mode", Value.str "ui")], .str "", .str ""⟩
      "dingtalk_webhook" (.str "W") ⟨none, true⟩).world.file =
        some (.parsed (strip [("mode", Value.str "ui")]))
  ∧ (ConfigManager.set ⟨[("mode", Value.str "ui")], .str "", .str ""⟩
      "dingtalk_webhook" (.str "W") ⟨none, true⟩).writes =
        [strip [("mode", Value.str "ui")]] :=
  C9_credential_set_triggers_save
    ⟨[("mode", Value.str "ui")], .str "", .str ""⟩ ⟨none, true⟩
    "dingtalk_webhook" (.str "W") rfl (Or.inl rfl)

/-- C10: after `load_config` and after every sequence of subsequent
operations, the in-memory configuration mapping holds neither
`dingtalk_webhook` nor `dingtalk_secret`: load deletes them from data read
from disk and `set` routes them to the dedicated in-memory fields. -/
theorem C10_config_mapping_never_contains_credential_keys (env : Env)
    (w : World) (ops : List Op) :
    NoCredKeys (runOps (load_config env w).cm (load_config env w).world
      ops).cm.config :=
  runOps_noCredKeys _ _ ops (load_config_noCredKeys env w)

end LOFMonitor
